import Mathlib

/-!
Verification of the report subsystem (`pkg/report/report.go`).

Shallow embedding conventions:
- `time.Time` instants are modelled as `Int` nanoseconds since the epoch;
  every operation that calls `time.Now()` in Go takes the current instant
  `now : Int` as an explicit argument.
- Go slices of pointers (`[]*T`) become Lean `List T`; pointer mutation
  becomes explicit state passing (each mutating method returns the updated
  value).
- `fmt.Sprintf("%.3f", d.Seconds())` is modelled by an exact decimal
  printer: the nanosecond difference is rounded to milliseconds
  (round-half-to-even, the rounding `strconv` applies at the final digit;
  the intermediate `float64` approximation of `Duration.Seconds` is
  abstracted as exact arithmetic — the properties proved below depend only
  on the shape and sign of the output, which both agree).
- `encoding/json` / `encoding/xml` marshalling is modelled by encoders into
  explicit document value types, following the struct tags in the source
  (field order, `omitempty` omission on Go zero values), then rendered to a
  string; `MarshalIndent`'s indentation whitespace is abstracted (compact
  rendering) — no property below concerns whitespace.
- `os.WriteFile` is modelled by an oracle `io : path → data → perm →
  Except String Unit` supplied by the environment, and functions that
  write record a trace of the write calls they issue.
-/

namespace Report

/-- Character for a single decimal digit `d < 10`. -/
def digitChar (d : Nat) : Char := Char.ofNat (48 + d)

/-- Decimal digit list of a natural number, most significant digit first
(models the integer-part digits produced by `fmt`). -/
def natToDigits (n : Nat) : List Char :=
  if n < 10 then [digitChar n]
  else natToDigits (n / 10) ++ [digitChar (n % 10)]
decreasing_by exact Nat.div_lt_self (by omega) (by omega)

/-- Decimal string of a natural number. -/
def natRepr (n : Nat) : String := String.mk (natToDigits n)

/-- Decimal string of an integer (minus sign for negative values). -/
def intRepr (n : Int) : String :=
  (if n < 0 then "-" else "") ++ natRepr n.natAbs

/-- Fractional part `n < 1000` printed with exactly three digits,
zero-padded on the left. -/
def pad3 (n : Nat) : List Char :=
  if n < 10 then '0' :: '0' :: natToDigits n
  else if n < 100 then '0' :: natToDigits n
  else natToDigits n

/-- Rounding of `num / den` to the nearest integer, ties to even
(the rounding `strconv.AppendFloat` applies at the last printed digit). -/
def roundHalfEven (num den : Nat) : Nat :=
  let q := num / den
  let r := num % den
  if 2 * r < den then q
  else if den < 2 * r then q + 1
  else if q % 2 = 0 then q else q + 1

/-- Embeds `calculateDuration(start, end)`:
`fmt.Sprintf("%.3f", end.Sub(start).Seconds())`.  The nanosecond
difference `end - start` is printed as seconds with exactly three digits
after the decimal point; the sign of the difference is preserved (a
negative difference yields a leading minus sign, as `%.3f` does on a
negative float). -/
def calculateDuration (start end_ : Int) : String :=
  String.mk ((if end_ - start < 0 then ['-'] else []) ++
    natToDigits (roundHalfEven (end_ - start).natAbs 1000000 / 1000) ++
    '.' :: pad3 (roundHalfEven (end_ - start).natAbs 1000000 % 1000))

/-- Checker for the unsigned pattern `\d+\.\d{3}` (full match). -/
def matchesFixed3 (l : List Char) : Bool :=
  (!(l.takeWhile Char.isDigit).isEmpty) &&
  (match l.dropWhile Char.isDigit with
   | '.' :: frac => frac.length == 3 && frac.all Char.isDigit
   | _ => false)

/-- Checker for the pattern `-?\d+\.\d{3}` (full match). -/
def matchesDurationPattern (s : String) : Bool :=
  if s.data.head? = some '-' then matchesFixed3 s.data.tail
  else matchesFixed3 s.data

/-- Embeds the `Failure` struct: details of a test failure. -/
structure Failure where
  message : String
  type : String
deriving DecidableEq

/-- Embeds the `OperationType` string type (`create`, `delete`, `apply`,
`assert`, `error`, `script`, `command`). -/
abbrev OperationType := String

def OperationTypeCreate : OperationType := "create"
def OperationTypeDelete : OperationType := "delete"
def OperationTypeApply : OperationType := "apply"
def OperationTypeAssert : OperationType := "assert"
def OperationTypeError : OperationType := "error"
def OperationTypeScript : OperationType := "script"
def OperationTypeCommand : OperationType := "command"

/-- Embeds the `OperationReport` struct. -/
structure OperationReport where
  name : String
  startTime : Int
  endTime : Int
  time : String
  result : String
  message : String
  operationType : OperationType
deriving DecidableEq

/-- Embeds the `TestSpecStepReport` struct. -/
structure TestSpecStepReport where
  name : String
  results : List OperationReport
deriving DecidableEq

/-- Embeds the `TestReport` struct (`namespace` is a Lean keyword, hence
`namespace_`). -/
structure TestReport where
  name : String
  startTime : Int
  endTime : Int
  time : String
  failure : Option Failure
  steps : List TestSpecStepReport
  concurrent : Bool
  namespace_ : String
  skip : Bool
  skipDelete : Bool
deriving DecidableEq

/-- Embeds the `TestsReport` struct: the whole suite report. -/
structure TestsReport where
  name : String
  startTime : Int
  endTime : Int
  time : String
  reports : List TestReport
  failures : Int
deriving DecidableEq

/-- Embeds `NewTests`: fresh suite report (Go zero values for the fields
the constructor does not set: zero end time, empty duration string, zero
failure count). -/
def NewTests (name : String) (now : Int) : TestsReport :=
  { name := name, startTime := now, endTime := 0, time := "",
    reports := [], failures := 0 }

/-- Embeds `NewTest`: fresh test report. -/
def NewTest (name : String) (concurrent : Bool) (namespace_ : String)
    (skip : Bool) (skipDelete : Bool) (now : Int) : TestReport :=
  { name := name, startTime := now, endTime := 0, time := "",
    failure := none, steps := [], concurrent := concurrent,
    namespace_ := namespace_, skip := skip, skipDelete := skipDelete }

/-- Embeds `NewTestSpecStep`: fresh step report. -/
def NewTestSpecStep (name : String) : TestSpecStepReport :=
  { name := name, results := [] }

/-- Embeds `NewOperation`: fresh operation report. -/
def NewOperation (name : String) (operationType : OperationType)
    (now : Int) : OperationReport :=
  { name := name, startTime := now, endTime := 0, time := "",
    result := "", message := "", operationType := operationType }

/-- Embeds `(*TestsReport).AddTest`: append a test report to the suite. -/
def TestsReport.AddTest (tr : TestsReport) (test : TestReport) : TestsReport :=
  { tr with reports := tr.reports ++ [test] }

/-- Embeds `(*TestReport).AddTestStep`: append a step report to the test. -/
def TestReport.AddTestStep (t : TestReport) (step : TestSpecStepReport) :
    TestReport :=
  { t with steps := t.steps ++ [step] }

/-- Embeds `(*TestSpecStepReport).AddOperation`: append an operation report
to the step. -/
def TestSpecStepReport.AddOperation (ts : TestSpecStepReport)
    (op : OperationReport) : TestSpecStepReport :=
  { ts with results := ts.results ++ [op] }

/-- Embeds `(*TestReport).MarkTestEnd`: set the end time to now and store
the elapsed-duration string. -/
def TestReport.MarkTestEnd (t : TestReport) (now : Int) : TestReport :=
  { t with endTime := now, time := calculateDuration t.startTime now }

/-- Embeds `(*OperationReport).MarkOperationEnd`: set the end time to now
and store the elapsed-duration string. -/
def OperationReport.MarkOperationEnd (op : OperationReport) (now : Int) :
    OperationReport :=
  { op with endTime := now, time := calculateDuration op.startTime now }

/-- Embeds `(*TestsReport).Close`: set end time and duration, then walk the
test reports incrementing `Failures` for every test with a non-nil
failure.  Note the Go loop increments the stored field (`tr.Failures++`)
rather than assigning a freshly computed count. -/
def TestsReport.Close (tr : TestsReport) (now : Int) : TestsReport :=
  { tr with
    endTime := now
    time := calculateDuration tr.startTime now
    failures := tr.reports.foldl
      (fun acc test => if test.failure.isSome then acc + 1 else acc)
      tr.failures }

/-! ### Serialization

`encoding/json` and `encoding/xml` marshalling, modelled by explicit
document value types driven by the struct tags in the source. -/

/-- A JSON value (the target of the structured-document encoder). -/
inductive JSON where
  | str : String → JSON
  | num : Int → JSON
  | bool : Bool → JSON
  | obj : List (String × JSON) → JSON
  | arr : List JSON → JSON

/-- Member list of a JSON object (empty for non-objects). -/
def JSON.objMembers : JSON → List (String × JSON)
  | .obj fields => fields
  | _ => []

/-- Key list of a JSON object (empty for non-objects). -/
def JSON.objKeys (j : JSON) : List String := j.objMembers.map Prod.fst

/-- String rendering of a `time.Time` instant.  Go renders RFC 3339 text;
the textual shape of an instant is irrelevant to every property below, so
the nanosecond value is printed in decimal. -/
def timeRepr (t : Int) : String := intRepr t

/-- JSON encoding of `Failure` (tags: `message`, `type`, both always
present). -/
def encodeFailure (f : Failure) : JSON :=
  JSON.obj [("message", .str f.message), ("type", .str f.type)]

/-- JSON encoding of `OperationReport` following its struct tags
(`message` and `operationType` carry `omitempty` and are dropped on the
Go zero value `""`). -/
def encodeOperationReport (op : OperationReport) : JSON :=
  JSON.obj ([("name", .str op.name),
             ("startTime", .str (timeRepr op.startTime)),
             ("endTime", .str (timeRepr op.endTime)),
             ("time", .str op.time),
             ("result", .str op.result)] ++
    (if op.message = "" then [] else [("message", .str op.message)]) ++
    (if op.operationType = "" then []
     else [("operationType", .str op.operationType)]))

/-- JSON encoding of `TestSpecStepReport` following its struct tags
(`name` and `results` both carry `omitempty`). -/
def encodeStepReport (s : TestSpecStepReport) : JSON :=
  JSON.obj ((if s.name = "" then [] else [("name", .str s.name)]) ++
    (if s.results.isEmpty then []
     else [("results", .arr (s.results.map encodeOperationReport))]))

/-- JSON encoding of `TestReport` following its struct tags: `name`,
`startTime`, `endTime`, `time` always present; `failure`, `steps`,
`concurrent`, `namespace`, `skip`, `skipDelete` carry `omitempty` and are
dropped on the Go zero value (`nil`, empty slice, `false`, `""`). -/
def encodeTestReport (t : TestReport) : JSON :=
  JSON.obj ([("name", .str t.name),
             ("startTime", .str (timeRepr t.startTime)),
             ("endTime", .str (timeRepr t.endTime)),
             ("time", .str t.time)] ++
    (match t.failure with
     | some f => [("failure", encodeFailure f)]
     | none => []) ++
    (if t.steps.isEmpty then []
     else [("steps", .arr (t.steps.map encodeStepReport))]) ++
    (if t.concurrent then [("concurrent", .bool true)] else []) ++
    (if t.namespace_ = "" then [] else [("namespace", .str t.namespace_)]) ++
    (if t.skip then [("skip", .bool true)] else []) ++
    (if t.skipDelete then [("skipDelete", .bool true)] else []))

/-- JSON encoding of `TestsReport`: all six fields are tagged without
`omitempty`, so all are always present. -/
def encodeTestsReport (tr : TestsReport) : JSON :=
  JSON.obj [("name", .str tr.name),
            ("startTime", .str (timeRepr tr.startTime)),
            ("endTime", .str (timeRepr tr.endTime)),
            ("time", .str tr.time),
            ("reports", .arr (tr.reports.map encodeTestReport)),
            ("failures", .num tr.failures)]

/-- Escapes a character for a JSON string literal. -/
def escapeChar (c : Char) : List Char :=
  if c = '"' ∨ c = '\\' then ['\\', c] else [c]

/-- Escapes a string for use inside a JSON string literal. -/
def escapeString (s : String) : String := String.mk (s.data.flatMap escapeChar)

mutual

/-- Text rendering of a JSON value (compact; `MarshalIndent`'s whitespace
is abstracted, no property below concerns it). -/
def renderJSON : JSON → String
  | .str s => "\"" ++ escapeString s ++ "\""
  | .num n => intRepr n
  | .bool b => if b then "true" else "false"
  | .obj fields => "\x7b" ++ renderMembers fields ++ "\x7d"
  | .arr xs => "[" ++ renderItems xs ++ "]"

/-- Renders the comma-separated members of a JSON object. -/
def renderMembers : List (String × JSON) → String
  | [] => ""
  | [(k, v)] => "\"" ++ escapeString k ++ "\": " ++ renderJSON v
  | (k, v) :: rest =>
      "\"" ++ escapeString k ++ "\": " ++ renderJSON v ++ "," ++
        renderMembers rest

/-- Renders the comma-separated items of a JSON array. -/
def renderItems : List JSON → String
  | [] => ""
  | [x] => renderJSON x
  | x :: rest => renderJSON x ++ "," ++ renderItems rest

end

/-- An XML node (the target of the markup-document encoder): an element
with a tag, attributes and children, or character data. -/
inductive XMLNode where
  | elem : String → List (String × String) → List XMLNode → XMLNode
  | text : String → XMLNode

/-- XML encoding of `Failure` under a field-given element name (tags:
`message,attr`, `type,attr`). -/
def encodeFailureXML (tag : String) (f : Failure) : XMLNode :=
  .elem tag [("message", f.message), ("type", f.type)] []

/-- XML encoding of `OperationReport` as a `results` element: scalar
fields are attributes, `message` a child element omitted when empty. -/
def encodeOperationReportXML (op : OperationReport) : XMLNode :=
  .elem "results"
    ([("name", op.name),
      ("startTime", timeRepr op.startTime),
      ("endTime", timeRepr op.endTime),
      ("time", op.time),
      ("result", op.result)] ++
     [("operationType", op.operationType)])
    (if op.message = "" then [] else [.elem "message" [] [.text op.message]])

/-- XML encoding of `TestSpecStepReport` as a `steps` element
(`name,attr,omitempty`; `results` children omitted when empty). -/
def encodeStepReportXML (s : TestSpecStepReport) : XMLNode :=
  .elem "steps"
    (if s.name = "" then [] else [("name", s.name)])
    (s.results.map encodeOperationReportXML)

/-- XML encoding of `TestReport` as a `reports` element: timing fields and
the four flags are attributes (flags `omitempty`), `failure` and `steps`
are child elements. -/
def encodeTestReportXML (t : TestReport) : XMLNode :=
  .elem "reports"
    ([("name", t.name),
      ("startTime", timeRepr t.startTime),
      ("endTime", timeRepr t.endTime),
      ("time", t.time)] ++
     (if t.concurrent then [("concurrent", "true")] else []) ++
     (if t.namespace_ = "" then [] else [("namespace", t.namespace_)]) ++
     (if t.skip then [("skip", "true")] else []) ++
     (if t.skipDelete then [("skipDelete", "true")] else []))
    ((match t.failure with
      | some f => [encodeFailureXML "failure" f]
      | none => []) ++
     (t.steps.map encodeStepReportXML))

/-- XML encoding of `TestsReport` as the root `TestsReport` element:
suite-level fields are attributes, test reports are child elements. -/
def encodeTestsReportXML (tr : TestsReport) : XMLNode :=
  .elem "TestsReport"
    [("name", tr.name),
     ("startTime", timeRepr tr.startTime),
     ("endTime", timeRepr tr.endTime),
     ("time", tr.time),
     ("failures", intRepr tr.failures)]
    (tr.reports.map encodeTestReportXML)

/-- Renders an attribute list as ` k="v" ...`. -/
def renderAttrs : List (String × String) → String
  | [] => ""
  | (k, v) :: rest => " " ++ k ++ "=\"" ++ v ++ "\"" ++ renderAttrs rest

mutual

/-- Text rendering of an XML node (compact; indentation abstracted). -/
def renderXML : XMLNode → String
  | .elem tag attrs children =>
      "<" ++ tag ++ renderAttrs attrs ++ ">" ++ renderChildren children ++
        "</" ++ tag ++ ">"
  | .text s => s

/-- Renders a list of XML child nodes. -/
def renderChildren : List XMLNode → String
  | [] => ""
  | x :: rest => renderXML x ++ renderChildren rest

end

/-! ### Serializer selection and persistence -/

/-- Embeds the `ReportSerializer` interface: a capability producing the
serialized bytes of a suite report or an error. -/
structure ReportSerializer where
  Serialize : TestsReport → Except String String

/-- Embeds `JSONSerializer`: `json.MarshalIndent` on the suite report.
Marshalling of this data model (strings, times, bools, lists) cannot fail,
so the encoder always succeeds. -/
def JSONSerializer : ReportSerializer :=
  ⟨fun report => .ok (renderJSON (encodeTestsReport report))⟩

/-- Embeds `XMLSerializer`: `xml.MarshalIndent` on the suite report. -/
def XMLSerializer : ReportSerializer :=
  ⟨fun report => .ok (renderXML (encodeTestsReportXML report))⟩

/-- Modelled from the spec: the format-selection enum
`v1alpha1.ReportFormatType` with its two recognized values `JSONFormat`
and `XMLFormat` lives in `pkg/apis/v1alpha1`, which is not part of the
sampled source; the spec describes it as a string-typed identifier with
exactly two recognized values naming the structured (JSON) and markup
(XML) formats. -/
abbrev ReportFormatType := String

/-- Modelled from the spec: the recognized structured-document (JSON)
format identifier. -/
def JSONFormat : ReportFormatType := "JSON"

/-- Modelled from the spec: the recognized markup-document (XML) format
identifier. -/
def XMLFormat : ReportFormatType := "XML"

/-- Lowercases one character (ASCII range; Go's `strings.ToLower` agrees
with this on the ASCII identifiers used for formats). -/
def toLowerChar (c : Char) : Char :=
  if 65 ≤ c.toNat ∧ c.toNat ≤ 90 then Char.ofNat (c.toNat + 32) else c

/-- Embeds `strings.ToLower` (ASCII-faithful: maps each character through
`toLowerChar`). -/
def strToLower (s : String) : String := String.mk (s.data.map toLowerChar)

/-- Embeds `GetSerializer`: dispatch on the format identifier, two
recognized values, anything else is an unsupported-format error. -/
def GetSerializer (format : ReportFormatType) :
    Except String ReportSerializer :=
  if format = JSONFormat then .ok JSONSerializer
  else if format = XMLFormat then .ok XMLSerializer
  else .error "unsupported report format"

/-- One `os.WriteFile` call: destination path, data written, permission
bits. -/
structure WriteCall where
  path : String
  data : String
  perm : Nat
deriving DecidableEq

/-- Embeds `SaveReport`: serialize, return a serialization error
unchanged without writing, otherwise write the bytes to the path with
permission `0o600` through the `io` oracle (which models `os.WriteFile`,
possibly failing).  The second component is the trace of write calls
issued. -/
def SaveReport (io : String → String → Nat → Except String Unit)
    (report : TestsReport) (serializer : ReportSerializer)
    (filePath : String) : Except String Unit × List WriteCall :=
  match serializer.Serialize report with
  | .error e => (.error e, [])
  | .ok data => (io filePath data 0o600, [⟨filePath, data, 0o600⟩])

/-- Embeds `(*TestsReport).SaveReportBasedOnType`: select the serializer
for the format, return the selection error unchanged, otherwise save to
`reportName ++ "." ++ strings.ToLower(format)`. -/
def TestsReport.SaveReportBasedOnType
    (io : String → String → Nat → Except String Unit) (report : TestsReport)
    (reportFormat : ReportFormatType) (reportName : String) :
    Except String Unit × List WriteCall :=
  match GetSerializer reportFormat with
  | .error e => (.error e, [])
  | .ok serializer =>
      SaveReport io report serializer
        (reportName ++ "." ++ strToLower reportFormat)

/-! ### Helper lemmas -/

theorem digitChar_isDigit {d : Nat} (h : d < 10) :
    (digitChar d).isDigit = true := by
  interval_cases d <;> decide

theorem natToDigits_ne_nil (n : Nat) : natToDigits n ≠ [] := by
  rw [natToDigits]
  split
  · simp
  · simp

theorem natToDigits_all_digits (n : Nat) :
    ∀ c ∈ natToDigits n, c.isDigit = true := by
  induction n using Nat.strong_induction_on with
  | _ n ih =>
    rw [natToDigits]
    split
    · next h =>
      intro c hc
      simp only [List.mem_singleton] at hc
      subst hc
      exact digitChar_isDigit h
    · next h =>
      intro c hc
      simp only [List.mem_append, List.mem_singleton] at hc
      rcases hc with hc | hc
      · exact ih (n / 10) (Nat.div_lt_self (by omega) (by omega)) c hc
      · subst hc
        exact digitChar_isDigit (Nat.mod_lt _ (by omega))

theorem natToDigits_length_lt10 {n : Nat} (h : n < 10) :
    (natToDigits n).length = 1 := by
  rw [natToDigits, if_pos h]
  rfl

theorem natToDigits_length_lt100 {n : Nat} (h1 : 10 ≤ n) (h2 : n < 100) :
    (natToDigits n).length = 2 := by
  rw [natToDigits, if_neg (by omega)]
  have : n / 10 < 10 := by omega
  simp [natToDigits_length_lt10 this]

theorem natToDigits_length_lt1000 {n : Nat} (h1 : 100 ≤ n) (h2 : n < 1000) :
    (natToDigits n).length = 3 := by
  rw [natToDigits, if_neg (by omega)]
  have h3 : 10 ≤ n / 10 := by omega
  have h4 : n / 10 < 100 := by omega
  simp [natToDigits_length_lt100 h3 h4]

theorem pad3_length {n : Nat} (h : n < 1000) : (pad3 n).length = 3 := by
  unfold pad3
  split
  · next h1 => simp [natToDigits_length_lt10 h1]
  · next h1 =>
    split
    · next h2 => simp [natToDigits_length_lt100 (by omega) h2]
    · next h2 => exact natToDigits_length_lt1000 (by omega) h

theorem pad3_all_digits (n : Nat) : ∀ c ∈ pad3 n, c.isDigit = true := by
  unfold pad3
  split
  · intro c hc
    simp only [List.mem_cons] at hc
    rcases hc with hc | hc | hc
    · subst hc; decide
    · subst hc; decide
    · exact natToDigits_all_digits n c hc
  · split
    · intro c hc
      simp only [List.mem_cons] at hc
      rcases hc with hc | hc
      · subst hc; decide
      · exact natToDigits_all_digits n c hc
    · exact natToDigits_all_digits n

theorem takeWhile_append_of_all {α : Type} (p : α → Bool) {l₁ l₂ : List α}
    (h : ∀ a ∈ l₁, p a = true) :
    (l₁ ++ l₂).takeWhile p = l₁ ++ l₂.takeWhile p := by
  induction l₁ with
  | nil => simp
  | cons a l ih =>
    have ha : p a = true := h a (List.mem_cons_self _ _)
    simp only [List.cons_append, List.takeWhile_cons_of_pos ha]
    rw [ih fun x hx => h x (List.mem_cons_of_mem _ hx)]

theorem dropWhile_append_of_all {α : Type} (p : α → Bool) {l₁ l₂ : List α}
    (h : ∀ a ∈ l₁, p a = true) :
    (l₁ ++ l₂).dropWhile p = l₂.dropWhile p := by
  induction l₁ with
  | nil => simp
  | cons a l ih =>
    have ha : p a = true := h a (List.mem_cons_self _ _)
    simp only [List.cons_append, List.dropWhile_cons, ha, if_pos]
    exact ih fun x hx => h x (List.mem_cons_of_mem _ hx)

theorem matchesFixed3_digits_dot (a b : Nat) (hb : b < 1000) :
    matchesFixed3 (natToDigits a ++ '.' :: pad3 b) = true := by
  unfold matchesFixed3
  rw [takeWhile_append_of_all _ (natToDigits_all_digits a),
      dropWhile_append_of_all _ (natToDigits_all_digits a)]
  have hdot : ('.' : Char).isDigit = false := by decide
  rw [List.takeWhile_cons_of_neg (by simp [hdot]), List.dropWhile_cons]
  simp only [hdot, if_neg (by simp : ¬(false = true))]
  simp [natToDigits_ne_nil a, pad3_length hb, List.all_eq_true]
  exact pad3_all_digits b

theorem natToDigits_head_digit (a : Nat) :
    ∃ c cs, natToDigits a = c :: cs ∧ c.isDigit = true := by
  cases h : natToDigits a with
  | nil => exact absurd h (natToDigits_ne_nil a)
  | cons c cs =>
    exact ⟨c, cs, rfl, natToDigits_all_digits a c (by rw [h]; simp)⟩

theorem foldl_failure_count (l : List TestReport) (init : Int) :
    l.foldl (fun acc t => if t.failure.isSome then acc + 1 else acc) init
      = init + (l.countP (fun t => t.failure.isSome) : Int) := by
  induction l generalizing init with
  | nil => simp
  | cons t l ih =>
    simp only [List.foldl_cons, List.countP_cons, ih]
    by_cases h : t.failure.isSome
    · simp [h]
      omega
    · simp [h]

/-! ### Claim theorems -/

/-- Claim C1: for every suite report holding N test reports of which
exactly K have a non-absent failure, `Close` sets the suite's `Failures`
field to K (the field is zero beforehand: the constructor initializes it
to zero and no other operation writes it). -/
theorem Close_sets_failures (tr : TestsReport) (now : Int) (K : Nat)
    (h0 : tr.failures = 0)
    (hK : tr.reports.countP (fun t => t.failure.isSome) = K) :
    (tr.Close now).failures = K := by
  simp [TestsReport.Close, foldl_failure_count, h0, hK]

theorem Close_sets_failures_witness :
    (TestsReport.Close ((NewTests "s" 0).AddTest
        { NewTest "t1" false "" false false 0 with
          failure := some ⟨"boom", "AssertionError"⟩ }) 5).failures
      = ((1 : Nat) : Int) :=
  Close_sets_failures _ 5 1 rfl (by decide)

/-- Claim C2, counterexample: on a suite with one failing test and no
mutation in between, a second `Close` does not leave `Failures` at the
value the first `Close` produced — the Go loop increments the stored
field instead of overwriting it, so the count doubles. -/
theorem Close_twice_changes_failures :
    ((((NewTests "s" 0).AddTest
        { NewTest "tf" false "" false false 0 with
          failure := some ⟨"boom", "AssertionError"⟩ }).Close 1).Close
          2).failures
      ≠ (((NewTests "s" 0).AddTest
          { NewTest "tf" false "" false false 0 with
            failure := some ⟨"boom", "AssertionError"⟩ }).Close 1).failures := by
  decide

/-- Claim C2 (amended): a second `Close` on an unchanged tree adds the
failure count again on top of the stored value, so `Failures` ends at
twice the count of failing tests rather than at the same value; the two
invocations agree only when no test has a failure. -/
theorem Close_twice_adds_count (tr : TestsReport) (n1 n2 : Int) :
    ((tr.Close n1).Close n2).failures
      = (tr.Close n1).failures
        + (tr.reports.countP (fun t => t.failure.isSome) : Int) := by
  simp [TestsReport.Close, foldl_failure_count]

/-- Claim C3: for every pair of instants, `calculateDuration` produces a
string matching `-?\d+\.\d{3}` (never failing: it is total); the sign is
preserved — when `end < start` the string starts with a minus sign, and
when `end ≥ start` it matches the unsigned pattern `\d+\.\d{3}`. -/
theorem calculateDuration_pattern (s e : Int) :
    matchesDurationPattern (calculateDuration s e) = true ∧
    (e < s → (calculateDuration s e).data.head? = some '-') ∧
    (s ≤ e → matchesFixed3 (calculateDuration s e).data = true) := by
  have hb : roundHalfEven (e - s).natAbs 1000000 % 1000 < 1000 :=
    Nat.mod_lt _ (by norm_num)
  by_cases hd : e - s < 0
  · have hdata : (calculateDuration s e).data
        = '-' :: (natToDigits (roundHalfEven (e - s).natAbs 1000000 / 1000) ++
            '.' :: pad3 (roundHalfEven (e - s).natAbs 1000000 % 1000)) := by
      unfold calculateDuration
      rw [if_pos hd]
      rfl
    refine ⟨?_, fun _ => ?_, fun hse => ?_⟩
    · unfold matchesDurationPattern
      rw [hdata]
      simp only [List.head?_cons, List.tail_cons, if_true]
      exact matchesFixed3_digits_dot _ _ hb
    · rw [hdata]
      rfl
    · exfalso; omega
  · obtain ⟨c, cs, hc, hcd⟩ :=
      natToDigits_head_digit (roundHalfEven (e - s).natAbs 1000000 / 1000)
    have hdata : (calculateDuration s e).data
        = natToDigits (roundHalfEven (e - s).natAbs 1000000 / 1000) ++
            '.' :: pad3 (roundHalfEven (e - s).natAbs 1000000 % 1000) := by
      unfold calculateDuration
      rw [if_neg hd]
      rfl
    have hcm : c ≠ '-' := by
      intro hcontra
      rw [hcontra] at hcd
      exact absurd hcd (by decide)
    have hhead : ¬((natToDigits (roundHalfEven (e - s).natAbs 1000000 / 1000)
          ++ '.' :: pad3 (roundHalfEven (e - s).natAbs 1000000 % 1000)).head?
        = some '-') := by
      rw [hc]
      simp [hcm]
    refine ⟨?_, fun hse => ?_, fun _ => ?_⟩
    · unfold matchesDurationPattern
      rw [hdata, if_neg hhead]
      exact matchesFixed3_digits_dot _ _ hb
    · exfalso; omega
    · rw [hdata]
      exact matchesFixed3_digits_dot _ _ hb

theorem calculateDuration_pattern_witness :
    matchesDurationPattern (calculateDuration 2 5) = true ∧
    (calculateDuration 5 2).data.head? = some '-' :=
  ⟨(calculateDuration_pattern 2 5).1,
   (calculateDuration_pattern 5 2).2.1 (by decide)⟩

/-- Claim C4: `GetSerializer` succeeds exactly on the two recognized
format identifiers — the JSON identifier yields the JSON encoder and the
XML identifier the XML encoder — and every other identifier yields the
unsupported-format error and no serializer. -/
theorem GetSerializer_spec (format : ReportFormatType) :
    ((∃ s, GetSerializer format = .ok s) ↔
      (format = JSONFormat ∨ format = XMLFormat)) ∧
    GetSerializer JSONFormat = .ok JSONSerializer ∧
    GetSerializer XMLFormat = .ok XMLSerializer ∧
    (format ≠ JSONFormat → format ≠ XMLFormat →
      GetSerializer format = .error "unsupported report format") := by
  have herr : ∀ h1 : format ≠ JSONFormat, ∀ h2 : format ≠ XMLFormat,
      GetSerializer format = .error "unsupported report format" := by
    intro h1 h2
    rw [GetSerializer, if_neg h1, if_neg h2]
  refine ⟨⟨?_, ?_⟩, rfl, rfl, herr⟩
  · rintro ⟨s, hs⟩
    by_cases h1 : format = JSONFormat
    · exact Or.inl h1
    by_cases h2 : format = XMLFormat
    · exact Or.inr h2
    rw [herr h1 h2] at hs
    exact absurd hs (by simp)
  · rintro (h | h) <;> subst h
    · exact ⟨JSONSerializer, rfl⟩
    · exact ⟨XMLSerializer, rfl⟩

theorem GetSerializer_spec_witness :
    GetSerializer "yaml" = .error "unsupported report format" :=
  (GetSerializer_spec "yaml").2.2.2 (by decide) (by decide)

/-- Claim C5: `SaveReport` returns a serialization error unchanged and
issues no write; on serialization success it issues exactly one write of
the serialized byte buffer to the destination path with permission
`0o600`, whose outcome (any write error included) is returned
unmodified. -/
theorem SaveReport_spec (io : String → String → Nat → Except String Unit)
    (report : TestsReport) (serializer : ReportSerializer)
    (filePath : String) :
    (∀ e, serializer.Serialize report = .error e →
      SaveReport io report serializer filePath = (.error e, [])) ∧
    (∀ data, serializer.Serialize report = .ok data →
      SaveReport io report serializer filePath
        = (io filePath data 0o600, [⟨filePath, data, 0o600⟩])) := by
  constructor
  · intro e he
    simp [SaveReport, he]
  · intro data hdata
    simp [SaveReport, hdata]

theorem SaveReport_spec_witness :
    SaveReport (fun _ _ _ => .error "disk full") (NewTests "w" 0)
        ⟨fun _ => .error "boom"⟩ "out.json" = (.error "boom", []) ∧
    SaveReport (fun _ _ _ => .error "disk full") (NewTests "w" 0)
        ⟨fun _ => .ok "data"⟩ "out.json"
      = (.error "disk full", [⟨"out.json", "data", 0o600⟩]) :=
  ⟨(SaveReport_spec (fun _ _ _ => .error "disk full") (NewTests "w" 0)
      ⟨fun _ => .error "boom"⟩ "out.json").1 "boom" rfl,
   (SaveReport_spec (fun _ _ _ => .error "disk full") (NewTests "w" 0)
      ⟨fun _ => .ok "data"⟩ "out.json").2 "data" rfl⟩

/-- Claim C6: for a recognized format, `SaveReportBasedOnType` writes to
the path obtained from the report name followed by a dot followed by the
lowercased format identifier. -/
theorem SaveReportBasedOnType_path
    (io : String → String → Nat → Except String Unit)
    (report : TestsReport) (reportFormat : ReportFormatType)
    (reportName : String)
    (h : reportFormat = JSONFormat ∨ reportFormat = XMLFormat) :
    ∃ data,
      (TestsReport.SaveReportBasedOnType io report reportFormat
          reportName).2
        = [⟨reportName ++ "." ++ strToLower reportFormat, data, 0o600⟩] := by
  rcases h with h | h <;> subst h
  · exact ⟨renderJSON (encodeTestsReport report), rfl⟩
  · exact ⟨renderXML (encodeTestsReportXML report), rfl⟩

theorem SaveReportBasedOnType_path_witness :
    ∃ data,
      (TestsReport.SaveReportBasedOnType (fun _ _ _ => .ok ())
          (NewTests "w" 0) "JSON" "report").2
        = [⟨"report.json", data, 0o600⟩] := by
  obtain ⟨d, hd⟩ := SaveReportBasedOnType_path (fun _ _ _ => .ok ())
    (NewTests "w" 0) "JSON" "report" (Or.inl rfl)
  refine ⟨d, ?_⟩
  rw [hd]
  have : "report" ++ "." ++ strToLower "JSON" = "report.json" := by decide
  rw [this]

/-- Claim C7: appending tests named `a`, `b`, `c` in that order yields a
`Reports` sequence listing them in exactly that order after whatever was
already there; appending steps and operations extends the respective
sequence at the end the same way, and `Close` neither removes nor reorders
previously appended test reports. -/
theorem append_preserves_order (tr : TestsReport) (ta tb tc : TestReport)
    (ha : ta.name = "a") (hb : tb.name = "b") (hc : tc.name = "c") :
    ((((tr.AddTest ta).AddTest tb).AddTest tc).reports.map TestReport.name
        = tr.reports.map TestReport.name ++ ["a", "b", "c"]) ∧
    (∀ t s, (TestReport.AddTestStep t s).steps = t.steps ++ [s]) ∧
    (∀ st op, (TestSpecStepReport.AddOperation st op).results
        = st.results ++ [op]) ∧
    (∀ now, (tr.Close now).reports = tr.reports) := by
  refine ⟨?_, fun t s => rfl, fun st op => rfl, fun now => rfl⟩
  simp [TestsReport.AddTest, ha, hb, hc]

theorem append_preserves_order_witness :
    ((((NewTests "suite" 0).AddTest
        (NewTest "a" false "" false false 0)).AddTest
        (NewTest "b" false "" false false 0)).AddTest
        (NewTest "c" false "" false false 0)).reports.map TestReport.name
      = (NewTests "suite" 0).reports.map TestReport.name ++ ["a", "b", "c"] :=
  (append_preserves_order (NewTests "suite" 0)
    (NewTest "a" false "" false false 0) (NewTest "b" false "" false false 0)
    (NewTest "c" false "" false false 0) rfl rfl rfl).1

/-- Claim C9: `MarkTestEnd` sets the end time to the supplied instant and
stores the duration string computed from the report's start time, leaves
every other field unchanged, and a second call overwrites both fields
with the later call's values; `MarkOperationEnd` satisfies the same
contract on an operation report. -/
theorem MarkTestEnd_spec (t : TestReport) (op : OperationReport)
    (n1 n2 : Int) :
    ((t.MarkTestEnd n1).endTime = n1 ∧
     (t.MarkTestEnd n1).time = calculateDuration t.startTime n1 ∧
     (t.MarkTestEnd n1).name = t.name ∧
     (t.MarkTestEnd n1).startTime = t.startTime ∧
     (t.MarkTestEnd n1).failure = t.failure ∧
     (t.MarkTestEnd n1).steps = t.steps ∧
     (t.MarkTestEnd n1).concurrent = t.concurrent ∧
     (t.MarkTestEnd n1).namespace_ = t.namespace_ ∧
     (t.MarkTestEnd n1).skip = t.skip ∧
     (t.MarkTestEnd n1).skipDelete = t.skipDelete ∧
     (t.MarkTestEnd n1).MarkTestEnd n2 = t.MarkTestEnd n2) ∧
    ((op.MarkOperationEnd n1).endTime = n1 ∧
     (op.MarkOperationEnd n1).time = calculateDuration op.startTime n1 ∧
     (op.MarkOperationEnd n1).name = op.name ∧
     (op.MarkOperationEnd n1).startTime = op.startTime ∧
     (op.MarkOperationEnd n1).result = op.result ∧
     (op.MarkOperationEnd n1).message = op.message ∧
     (op.MarkOperationEnd n1).operationType = op.operationType ∧
     (op.MarkOperationEnd n1).MarkOperationEnd n2 = op.MarkOperationEnd n2) :=
  ⟨⟨rfl, rfl, rfl, rfl, rfl, rfl, rfl, rfl, rfl, rfl, rfl⟩,
   ⟨rfl, rfl, rfl, rfl, rfl, rfl, rfl, rfl⟩⟩

/-- Claim C10: `Close` mutates only the suite's own `EndTime`, `Time` and
`Failures`: its name, start time and the `Reports` sequence (hence every
test, step and operation report in the tree) are exactly as before the
call. -/
theorem Close_frame (tr : TestsReport) (now : Int) :
    (tr.Close now).name = tr.name ∧
    (tr.Close now).startTime = tr.startTime ∧
    (tr.Close now).reports = tr.reports ∧
    (tr.Close now).endTime = now ∧
    (tr.Close now).time = calculateDuration tr.startTime now :=
  ⟨rfl, rfl, rfl, rfl, rfl⟩

/-- Claim C8: in the structured (JSON) encoding, a test report with
`concurrent = false`, `namespace = ""`, `skip = false` and
`skipDelete = false` carries none of those four keys, and no `failure`
key when the failure is absent; a test report with `concurrent = true`
carries the member `concurrent: true`. -/
theorem encodeTestReport_omission (t : TestReport) :
    (t.concurrent = false → t.namespace_ = "" → t.skip = false →
     t.skipDelete = false →
      ("concurrent" ∉ (encodeTestReport t).objKeys ∧
       "namespace" ∉ (encodeTestReport t).objKeys ∧
       "skip" ∉ (encodeTestReport t).objKeys ∧
       "skipDelete" ∉ (encodeTestReport t).objKeys ∧
       (t.failure = none → "failure" ∉ (encodeTestReport t).objKeys))) ∧
    (t.concurrent = true →
      ("concurrent", JSON.bool true) ∈ (encodeTestReport t).objMembers) := by
  obtain ⟨nm, stt, ett, tm, failure, steps, conc, ns, sk, sd⟩ := t
  constructor
  · intro hc hn hs hsd
    dsimp only at hc hn hs hsd
    subst hc; subst hn; subst hs; subst hsd
    cases failure with
    | none =>
      cases steps with
      | nil =>
        refine ⟨?_, ?_, ?_, ?_, fun _ => ?_⟩ <;>
          simp [encodeTestReport, JSON.objKeys, JSON.objMembers]
      | cons s ss =>
        refine ⟨?_, ?_, ?_, ?_, fun _ => ?_⟩ <;>
          simp [encodeTestReport, JSON.objKeys, JSON.objMembers]
    | some f =>
      cases steps with
      | nil =>
        refine ⟨?_, ?_, ?_, ?_, fun hf => by simp at hf⟩ <;>
          simp [encodeTestReport, JSON.objKeys, JSON.objMembers]
      | cons s ss =>
        refine ⟨?_, ?_, ?_, ?_, fun hf => by simp at hf⟩ <;>
          simp [encodeTestReport, JSON.objKeys, JSON.objMembers]
  · intro hct
    dsimp only at hct
    subst hct
    simp [encodeTestReport, JSON.objMembers]

theorem encodeTestReport_omission_witness :
    ("concurrent" ∉
        (encodeTestReport (NewTest "t1" false "" false false 0)).objKeys) ∧
    (("concurrent", JSON.bool true)
        ∈ (encodeTestReport (NewTest "t2" true "" false false 0)).objMembers) :=
  ⟨((encodeTestReport_omission (NewTest "t1" false "" false false 0)).1
      rfl rfl rfl rfl).1,
   (encodeTestReport_omission (NewTest "t2" true "" false false 0)).2 rfl⟩

end Report
